import Mathlib

set_option maxRecDepth 100000

/-!
Verification development for the crypto-research-agent repository.

The repository has two components:
* `src/app/api/research/route.ts` — a proxy endpoint (`GET`) that forwards a
  `token` query parameter to a fixed upstream service and relays the JSON body.
* `src/app/page.tsx` — the dashboard page: a token-identifier input list
  (`handleTokenChange` / `addTokenField` / `removeTokenField`), a fetch-and-
  validate orchestrator (`handleSubmit` with `TokenSchema` zod validation),
  and a persisted dark-mode flag (two `useEffect` hooks over `localStorage`).

The embedding below models the data and control flow of those functions.
JavaScript runtime primitives that the code calls (`JSON.parse`,
`JSON.stringify`, `String.prototype.trim`, `String.prototype.toLowerCase`,
WHATWG `new URL` as used by zod's `url()` check) are modelled explicitly;
each model carries a comment stating the modelling choice.
-/

/-- A JSON value as produced by `JSON.parse`.  Numbers are kept as their
source lexeme (a string): none of the verified properties depends on numeric
value semantics, only on a field *being* a number, so this avoids committing
to a floating-point model. -/
inductive JsonValue where
  | null
  | bool (b : Bool)
  | num (lexeme : String)
  | str (s : String)
  | arr (elems : List JsonValue)
  | obj (fields : List (String × JsonValue))

/-- JSON insignificant whitespace (RFC 8259): space, tab, line feed, carriage
return. -/
def jsonWS (c : Char) : Bool :=
  c = ' ' || c = '\t' || c = '\n' || c = '\x0d'

/-- Drop leading JSON whitespace. -/
def skipJsonWS (cs : List Char) : List Char :=
  cs.dropWhile jsonWS

/-- Value of a hexadecimal digit, if the character is one. -/
def hexDigitVal (c : Char) : Option Nat :=
  if '0' ≤ c ∧ c ≤ '9' then some (c.toNat - '0'.toNat)
  else if 'a' ≤ c ∧ c ≤ 'f' then some (c.toNat - 'a'.toNat + 10)
  else if 'A' ≤ c ∧ c ≤ 'F' then some (c.toNat - 'A'.toNat + 10)
  else none

/-- Single-character JSON string escapes. -/
def jsonEscChar (c : Char) : Option Char :=
  if c = '"' then some '"'
  else if c = '\\' then some '\\'
  else if c = '/' then some '/'
  else if c = 'b' then some '\x08'
  else if c = 'f' then some '\x0c'
  else if c = 'n' then some '\n'
  else if c = 'r' then some '\x0d'
  else if c = 't' then some '\t'
  else none

/-- Parse the body of a JSON string literal (the opening quote already
consumed); returns the decoded characters and the remaining input after the
closing quote.  Fuel-indexed to make termination structural. -/
def parseStringBody : Nat → List Char → Option (List Char × List Char)
  | 0, _ => none
  | fuel + 1, cs =>
    match cs with
    | [] => none
    | c :: cs1 =>
      if c = '"' then some ([], cs1)
      else if c = '\\' then
        match cs1 with
        | [] => none
        | e :: cs2 =>
          if e = 'u' then
            match cs2 with
            | a :: b :: c3 :: d :: cs3 =>
              match hexDigitVal a, hexDigitVal b, hexDigitVal c3, hexDigitVal d with
              | some ha, some hb, some hc, some hd =>
                match parseStringBody fuel cs3 with
                | some (rest, tail) =>
                  some (Char.ofNat (((ha * 16 + hb) * 16 + hc) * 16 + hd) :: rest, tail)
                | none => none
              | _, _, _, _ => none
            | _ => none
          else
            match jsonEscChar e with
            | some ec =>
              match parseStringBody fuel cs2 with
              | some (rest, tail) => some (ec :: rest, tail)
              | none => none
            | none => none
      else
        match parseStringBody fuel cs1 with
        | some (rest, tail) => some (c :: rest, tail)
        | none => none

/-- Match an expected literal character sequence at the head of the input. -/
def stripChars : List Char → List Char → Option (List Char)
  | [], cs => some cs
  | e :: es, c :: cs => if c = e then stripChars es cs else none
  | _ :: _, [] => none

/-- One or more decimal digits; returns the digits and the rest. -/
def takeDigits1 (cs : List Char) : Option (List Char × List Char) :=
  let ds := cs.takeWhile Char.isDigit
  if ds = [] then none else some (ds, cs.dropWhile Char.isDigit)

/-- Parse a JSON number lexeme per RFC 8259
(`-? (0 | [1-9][0-9]*) frac? exp?`); returns the lexeme characters and the
remaining input. -/
def parseNumberLex (cs : List Char) : Option (List Char × List Char) :=
  let (sign, cs1) :=
    match cs with
    | '-' :: rest => (['-'], rest)
    | _ => (([] : List Char), cs)
  match cs1 with
  | [] => none
  | c :: rest =>
    if ¬ c.isDigit then none
    else
      let (intPart, cs2) :=
        if c = '0' then (['0'], rest)
        else (cs1.takeWhile Char.isDigit, cs1.dropWhile Char.isDigit)
      let (fracPart, cs3) :=
        match cs2 with
        | '.' :: r =>
          match takeDigits1 r with
          | some (ds, r2) => ('.' :: ds, r2)
          | none => (([] : List Char), cs2)
        | _ => (([] : List Char), cs2)
      let fracOk : Bool :=
        match cs2 with
        | '.' :: r => (takeDigits1 r).isSome
        | _ => true
      let (expPart, cs4) :=
        match cs3 with
        | e :: r =>
          if e = 'e' ∨ e = 'E' then
            let (esign, r1) :=
              match r with
              | s :: r2 => if s = '+' ∨ s = '-' then ([s], r2) else (([] : List Char), r)
              | [] => (([] : List Char), r)
            match takeDigits1 r1 with
            | some (ds, r2) => (e :: (esign ++ ds), r2)
            | none => (([] : List Char), cs3)
          else (([] : List Char), cs3)
        | [] => (([] : List Char), cs3)
      let expOk : Bool :=
        match cs3 with
        | e :: r =>
          if e = 'e' ∨ e = 'E' then
            let r1 :=
              match r with
              | s :: r2 => if s = '+' ∨ s = '-' then r2 else r
              | [] => r
            (takeDigits1 r1).isSome
          else true
        | [] => true
      if fracOk ∧ expOk then
        some (sign ++ intPart ++ fracPart ++ expPart, cs4)
      else none

mutual

/-- Recursive-descent JSON value grammar, modelling `JSON.parse`.
Fuel-indexed; callers supply fuel proportional to the input length. -/
def parseJsonValue : Nat → List Char → Option (JsonValue × List Char)
  | 0, _ => none
  | fuel + 1, cs =>
    match skipJsonWS cs with
    | [] => none
    | c :: rest =>
      if c = '"' then
        match parseStringBody (rest.length + 1) rest with
        | some (content, tail) => some (JsonValue.str ⟨content⟩, tail)
        | none => none
      else if c = 't' then
        match stripChars ['r', 'u', 'e'] rest with
        | some tail => some (JsonValue.bool true, tail)
        | none => none
      else if c = 'f' then
        match stripChars ['a', 'l', 's', 'e'] rest with
        | some tail => some (JsonValue.bool false, tail)
        | none => none
      else if c = 'n' then
        match stripChars ['u', 'l', 'l'] rest with
        | some tail => some (JsonValue.null, tail)
        | none => none
      else if c = Char.ofNat 91 then
        match skipJsonWS rest with
        | c2 :: tail2 =>
          if c2 = Char.ofNat 93 then some (JsonValue.arr [], tail2)
          else
            match parseJsonElems fuel (c2 :: tail2) with
            | some (es, tail) => some (JsonValue.arr es, tail)
            | none => none
        | [] => none
      else if c = Char.ofNat 123 then
        match skipJsonWS rest with
        | c2 :: tail2 =>
          if c2 = Char.ofNat 125 then some (JsonValue.obj [], tail2)
          else
            match parseJsonMembers fuel (c2 :: tail2) with
            | some (fs, tail) => some (JsonValue.obj fs, tail)
            | none => none
        | [] => none
      else if c = '-' ∨ c.isDigit then
        match parseNumberLex (c :: rest) with
        | some (lex, tail) => some (JsonValue.num ⟨lex⟩, tail)
        | none => none
      else none

/-- One-or-more comma-separated array elements followed by `]`. -/
def parseJsonElems : Nat → List Char → Option (List JsonValue × List Char)
  | 0, _ => none
  | fuel + 1, cs =>
    match parseJsonValue fuel cs with
    | some (v, cs1) =>
      match skipJsonWS cs1 with
      | c :: cs2 =>
        if c = ',' then
          match parseJsonElems fuel cs2 with
          | some (vs, tail) => some (v :: vs, tail)
          | none => none
        else if c = Char.ofNat 93 then some ([v], cs2)
        else none
      | [] => none
    | none => none

/-- One-or-more comma-separated object members followed by `}`. -/
def parseJsonMembers : Nat → List Char → Option (List (String × JsonValue) × List Char)
  | 0, _ => none
  | fuel + 1, cs =>
    match skipJsonWS cs with
    | c :: cs1 =>
      if c = '"' then
        match parseStringBody (cs1.length + 1) cs1 with
        | some (key, cs2) =>
          match skipJsonWS cs2 with
          | c2 :: cs3 =>
            if c2 = ':' then
              match parseJsonValue fuel cs3 with
              | some (v, cs4) =>
                match skipJsonWS cs4 with
                | c3 :: cs5 =>
                  if c3 = ',' then
                    match parseJsonMembers fuel cs5 with
                    | some (fs, tail) => some ((⟨key⟩, v) :: fs, tail)
                    | none => none
                  else if c3 = Char.ofNat 125 then some ([(⟨key⟩, v)], cs5)
                  else none
                | [] => none
              | none => none
            else none
          | [] => none
        | none => none
      else none
    | [] => none

end

/-- Model of `JSON.parse`: parse one JSON value, require the whole input to
be consumed (up to trailing whitespace); any failure is the thrown
`SyntaxError`, modelled as a single error value. -/
def jsonParse (s : String) : Except String JsonValue :=
  match parseJsonValue (2 * s.length + 2) s.data with
  | some (v, rest) =>
    if skipJsonWS rest = [] then Except.ok v else Except.error "invalid JSON"
  | none => Except.error "invalid JSON"

example : jsonParse "true" = Except.ok (JsonValue.bool true) := rfl
example : jsonParse "false" = Except.ok (JsonValue.bool false) := rfl
example : jsonParse "" = Except.error "invalid JSON" := rfl
example : jsonParse "#" = Except.error "invalid JSON" := rfl
example : jsonParse " \x7b\"a\": [1, -2.5e3, null]\x7d " =
    Except.ok (JsonValue.obj [("a", JsonValue.arr
      [JsonValue.num "1", JsonValue.num "-2.5e3", JsonValue.null])]) := rfl

/-- Model of `JSON.stringify` applied to a boolean (the only use in the
source: `localStorage.setItem('cryptoAgentDarkMode', JSON.stringify(dark))`). -/
def jsonStringifyBool (b : Bool) : String :=
  if b then "true" else "false"

/-- Model of JavaScript `String.prototype.trim` on the ASCII range: drop
whitespace from both ends (the source only ever tests the result for
truthiness, i.e. non-emptiness). -/
def trimJS (s : String) : String :=
  ⟨((s.data.dropWhile Char.isWhitespace).reverse.dropWhile Char.isWhitespace).reverse⟩

/-- Model of JavaScript `String.prototype.toLowerCase` on the ASCII range:
lower-case each character, leaving non-letters (whitespace included)
unchanged. -/
def toLowerJS (s : String) : String :=
  ⟨s.data.map Char.toLower⟩

example : trimJS "  BTC " = "BTC" := rfl
example : trimJS " \t " = "" := rfl
example : toLowerJS "  BTC " = "  btc " := rfl

/-- The closed sentiment enumeration of `TokenSchema`
(`z.enum(['bullish', 'bearish', 'neutral', 'strong bullish', 'strong bearish'])`). -/
inductive Sentiment where
  | bullish
  | bearish
  | neutral
  | strongBullish
  | strongBearish
deriving DecidableEq

/-- The string spelling of each enumeration member, as it appears in the
zod schema. -/
def sentimentStrings : List String :=
  ["bullish", "bearish", "neutral", "strong bullish", "strong bearish"]

/-- Decode a sentiment string into the enumeration, as `z.enum` does. -/
def parseSentiment (s : String) : Option Sentiment :=
  if s = "bullish" then some Sentiment.bullish
  else if s = "bearish" then some Sentiment.bearish
  else if s = "neutral" then some Sentiment.neutral
  else if s = "strong bullish" then some Sentiment.strongBullish
  else if s = "strong bearish" then some Sentiment.strongBearish
  else none

/-- A validated research result — the record produced by a successful
`TokenSchema.parse`.  Optional numeric fields keep their JSON number lexeme
(see `JsonValue.num`); `none` models an absent field. -/
structure TokenInfo where
  id : String
  name : String
  symbol : String
  image : String
  summary : String
  price : Option String
  market_cap : Option String
  price_change_24h : Option String
  volume_24h : Option String
  circulating_supply : Option String
  sentiment : Sentiment

/-- Model of the WHATWG URL-parseability test performed by zod's
`z.string().url()` validator, which runs `new URL(value)` and fails on a
throw.  Approximated as: a scheme — an ASCII letter followed by letters,
digits, `+`, `-` or `.` — terminated by a colon.  (The real parser imposes
extra requirements on the special schemes `http`, `https`, `ws`, `wss`,
`ftp` and `file`; all concrete inputs used below are well inside the common
behaviour.) -/
def isURL (s : String) : Bool :=
  let scheme := s.data.takeWhile (fun c => c ≠ ':')
  decide (scheme.length < s.data.length) &&
    (match scheme with
     | [] => false
     | c :: rest =>
       c.isAlpha && rest.all (fun d => d.isAlphanum || d = '+' || d = '-' || d = '.'))

example : isURL "https://example.com/b.png" = true := rfl
example : isURL "notaurl" = false := rfl
example : isURL "" = false := rfl

/-- Look a key up in a parsed JSON object.  `JSON.parse` keeps the *last*
occurrence of a duplicated key, so the reversed field list is searched.
Returns `none` when the value is not an object or the key is absent. -/
def jsonLookup (j : JsonValue) (key : String) : Option JsonValue :=
  match j with
  | JsonValue.obj fields => (fields.reverse.find? (fun f => f.1 = key)).map Prod.snd
  | _ => none

/-- `z.enum([...])` on a field of a parsed object: present, a string, and a
member of the enumeration. -/
def zodSentiment (v : Option JsonValue) : Except String Sentiment :=
  match v with
  | some (JsonValue.str s) =>
    match parseSentiment s with
    | some x => Except.ok x
    | none => Except.error "invalid enum value"
  | _ => Except.error "invalid enum value"

/-- `z.string()` on a field of a parsed object: present and a string. -/
def zodString (v : Option JsonValue) : Except String String :=
  match v with
  | some (JsonValue.str s) => Except.ok s
  | _ => Except.error "expected string"

/-- `z.number().optional()` on a field: absent is fine, otherwise it must be
a JSON number (`null` and other types fail, matching zod, where `optional`
admits only `undefined`). -/
def zodOptNumber (v : Option JsonValue) : Except String (Option String)  :=
  match v with
  | none => Except.ok none
  | some (JsonValue.num m) => Except.ok (some m)
  | some _ => Except.error "expected number"

/-- Model of `TokenSchema.parse` (zod).  Mirrors the schema field by field:

```
z.object({ id: z.string(), name: z.string(), symbol: z.string(),
           image: z.string().url(), summary: z.string(),
           price: z.number().optional(), market_cap: z.number().optional(),
           price_change_24h: z.number().optional(),
           volume_24h: z.number().optional(),
           circulating_supply: z.number().optional(),
           sentiment: z.enum([...]) })
```

Success requires the input to be an object whose required fields are present
with the demanded types, `image` to pass the URL check, and `sentiment` to
be one of the enumeration strings; zod's `.parse` throws otherwise, modelled
as `Except.error`. -/
def tokenSchemaParse (j : JsonValue) : Except String TokenInfo := do
  match j with
  | JsonValue.obj _ =>
    let id ← zodString (jsonLookup j "id")
    let name ← zodString (jsonLookup j "name")
    let symbol ← zodString (jsonLookup j "symbol")
    let image ← zodString (jsonLookup j "image")
    if !isURL image then Except.error "invalid url" else
    let summary ← zodString (jsonLookup j "summary")
    let price ← zodOptNumber (jsonLookup j "price")
    let market_cap ← zodOptNumber (jsonLookup j "market_cap")
    let price_change_24h ← zodOptNumber (jsonLookup j "price_change_24h")
    let volume_24h ← zodOptNumber (jsonLookup j "volume_24h")
    let circulating_supply ← zodOptNumber (jsonLookup j "circulating_supply")
    let sentiment ← zodSentiment (jsonLookup j "sentiment")
    Except.ok { id, name, symbol, image, summary, price, market_cap,
                price_change_24h, volume_24h, circulating_supply, sentiment }
  | _ => Except.error "expected object"

/-- The settlement of one `fetch` to the proxy, as observed by the page:
either the transport fails (the promise rejects), or a response arrives
carrying its `res.ok` flag and its body text (which `res.json()` will
parse). -/
inductive Transport where
  | fail
  | reply (ok : Bool) (bodyText : String)

/-- The per-token promise chain of `handleSubmit`:

```
fetch(`/api/research?token=...`)
  .then(res => { if (!res.ok) throw new Error('API request failed'); return res.json() })
  .then(data => TokenSchema.parse(data))
```

A rejection at any stage (transport, HTTP status, JSON body parse, schema
parse) is the rejected state of that token's promise. -/
def resolveToken (t : Transport) : Except String TokenInfo :=
  match t with
  | Transport.fail => Except.error "fetch failed"
  | Transport.reply ok bodyText =>
    if !ok then Except.error "API request failed"
    else
      match jsonParse bodyText with
      | Except.ok data => tokenSchemaParse data
      | Except.error e => Except.error e

/-- The observable outcome of one run of `handleSubmit`: the `token` query
parameters of the fetches it issued (in issue order), the final `results`
state, and the error toasts it emitted. -/
structure SubmitOutcome where
  requests : List String
  results : List TokenInfo
  toasts : List String

/-- The aggregate failure toast:
``toast.error(`Failed to fetch ${failedCount} token${failedCount > 1 ? 's' : ''}`)``. -/
def failToast (n : Nat) : String :=
  "Failed to fetch " ++ toString n ++ " token" ++ (if n > 1 then "s" else "")

/-- Model of `handleSubmit` in `src/app/page.tsx`.  The environment `net`
gives the settlement of the i-th issued request.  Control flow mirrors the
source: `setResults([])` first; filter the token list by `t.trim()`
truthiness; abort with a toast when nothing survives; otherwise fan out one
fetch per surviving token (lower-cased in the URL), `Promise.allSettled`,
keep the fulfilled values in issue order, count the rejected ones, toast the
aggregate failure count when it is positive, and store the successes. -/
def handleSubmit (tokens : List String) (net : Nat → Transport) : SubmitOutcome :=
  let validTokens := tokens.filter (fun t => trimJS t ≠ "")
  if validTokens.length = 0 then
    { requests := [], results := [], toasts := ["Please enter at least one token"] }
  else
    let settled := (List.range validTokens.length).map (fun i => resolveToken (net i))
    let successfulResults := settled.filterMap Except.toOption
    let failedCount := settled.countP (fun r => !r.isOk)
    { requests := validTokens.map toLowerJS,
      results := successfulResults,
      toasts := if failedCount > 0 then [failToast failedCount] else [] }

/-- JavaScript `Array.prototype.filter` with an index-aware callback,
starting the index at `k`. -/
def filterIdxFrom (p : Nat → Bool) (k : Nat) : List String → List String
  | [] => []
  | x :: xs => if p k then x :: filterIdxFrom p (k + 1) xs else filterIdxFrom p (k + 1) xs

/-- Model of `removeTokenField`: when more than one field remains, keep the
entries whose index differs (`tokens.filter((_, i) => i !== index)`);
otherwise leave the list unchanged. -/
def removeTokenField (tokens : List String) (index : Nat) : List String :=
  if tokens.length > 1 then filterIdxFrom (fun i => i ≠ index) 0 tokens
  else tokens

/-- Model of `handleTokenChange`: copy the list with the entry at `index`
replaced (the page only invokes it at indices of rendered fields). -/
def handleTokenChange (tokens : List String) (index : Nat) (value : String) : List String :=
  tokens.set index value

/-- Model of `addTokenField`: append one empty string. -/
def addTokenField (tokens : List String) : List String :=
  tokens ++ [""]

/-- The operations that mutate the token-identifier list. -/
inductive TokenListOp where
  | edit (index : Nat) (value : String)
  | add
  | remove (index : Nat)

/-- Apply one token-list operation. -/
def applyTokenListOp (tokens : List String) : TokenListOp → List String
  | TokenListOp.edit i v => handleTokenChange tokens i v
  | TokenListOp.add => addTokenField tokens
  | TokenListOp.remove i => removeTokenField tokens i

/-- The initial token-list state: `useState<string[]>([''])`. -/
def initialTokens : List String := [""]

/-- The response of the upstream research service as seen by the proxy:
an HTTP status and a body text. -/
structure UpstreamReply where
  status : Nat
  bodyText : String

/-- An HTTP response produced by the proxy route. -/
structure RouteResponse where
  status : Nat
  body : JsonValue

/-- The observable outcome of one proxy invocation: the response (or `none`
when the handler throws, e.g. a non-JSON upstream body) and the tokens it
forwarded upstream. -/
structure RouteOutcome where
  response : Option RouteResponse
  upstreamCalls : List String

/-- The 400 response of the proxy:
`NextResponse.json({ error: 'Token is required' }, { status: 400 })`. -/
def tokenRequiredResponse : RouteResponse :=
  { status := 400, body := JsonValue.obj [("error", JsonValue.str "Token is required")] }

/-- Model of `GET` in `src/app/api/research/route.ts`.  The `token`
parameter is `searchParams.get('token')` (`none` when absent); the guard
`if (!token)` fires on `null` and on the empty string, both being falsy.
Otherwise the handler fetches the fixed upstream URL with the same token
value, parses the body with `res.json()` (never consulting the upstream
status), and returns `NextResponse.json(data)` — status 200. -/
def routeGET (token : Option String) (upstream : String → UpstreamReply) : RouteOutcome :=
  match token with
  | none =>
    { response := some tokenRequiredResponse, upstreamCalls := [] }
  | some t =>
    if t = "" then
      { response := some tokenRequiredResponse, upstreamCalls := [] }
    else
      match jsonParse (upstream t).bodyText with
      | Except.ok data =>
        { response := some (RouteResponse.mk 200 data), upstreamCalls := [t] }
      | Except.error _ =>
        { response := none, upstreamCalls := [t] }

/-- Model of the dark-mode mount effect:

```
const savedDark = localStorage.getItem('cryptoAgentDarkMode')
setDark(savedDark ? JSON.parse(savedDark) : false)
```

`localStorage.getItem` yields `null` (modelled `none`) or a string; the
ternary tests truthiness, so `null` and the empty string select `false`
without parsing; any other string goes through `JSON.parse`, whose throw
propagates out of the effect (modelled `Except.error`). -/
def readDarkMode (stored : Option String) : Except String JsonValue :=
  match stored with
  | none => Except.ok (JsonValue.bool false)
  | some s => if s = "" then Except.ok (JsonValue.bool false) else jsonParse s

/-- Model of the dark-mode write effect:
`localStorage.setItem('cryptoAgentDarkMode', JSON.stringify(dark))`. -/
def writeDarkMode (dark : Bool) : String :=
  jsonStringifyBool dark

/-! ### Concrete sample data used by witnesses and counterexamples -/

/-- A schema-valid upstream body for bitcoin (optional `price` present). -/
def btcBodyText : String :=
  "\x7b\"id\":\"bitcoin\",\"name\":\"Bitcoin\",\"symbol\":\"BTC\",\"image\":\"https://assets.example/btc.png\",\"summary\":\"Strong.\",\"price\":1.5,\"sentiment\":\"bullish\"\x7d"

/-- The `TokenInfo` that `TokenSchema.parse` yields for `btcBodyText`. -/
def btcToken : TokenInfo :=
  { id := "bitcoin", name := "Bitcoin", symbol := "BTC",
    image := "https://assets.example/btc.png", summary := "Strong.",
    price := some "1.5", market_cap := none, price_change_24h := none,
    volume_24h := none, circulating_supply := none,
    sentiment := Sentiment.bullish }

/-- A schema-valid upstream body for ethereum (all optional fields absent). -/
def ethBodyText : String :=
  "\x7b\"id\":\"ethereum\",\"name\":\"Ethereum\",\"symbol\":\"ETH\",\"image\":\"https://assets.example/eth.png\",\"summary\":\"Fine.\",\"sentiment\":\"neutral\"\x7d"

/-- The `TokenInfo` that `TokenSchema.parse` yields for `ethBodyText`. -/
def ethToken : TokenInfo :=
  { id := "ethereum", name := "Ethereum", symbol := "ETH",
    image := "https://assets.example/eth.png", summary := "Fine.",
    price := none, market_cap := none, price_change_24h := none,
    volume_24h := none, circulating_supply := none,
    sentiment := Sentiment.neutral }

/-- A body whose `sentiment` is outside the closed enumeration. -/
def badSentimentBody : String :=
  "\x7b\"id\":\"x\",\"name\":\"X\",\"symbol\":\"X\",\"image\":\"https://a.example/x.png\",\"summary\":\"s\",\"sentiment\":\"sideways\"\x7d"

/-- A body whose `image` is not parseable as a URL. -/
def badImageBody : String :=
  "\x7b\"id\":\"x\",\"name\":\"X\",\"symbol\":\"X\",\"image\":\"notaurl\",\"summary\":\"s\",\"sentiment\":\"bullish\"\x7d"

/-- Network environment: first request answers the bitcoin body, the second
the ethereum body, anything further fails. -/
def netBtcEth : Nat → Transport := fun i =>
  if i = 0 then Transport.reply true btcBodyText
  else if i = 1 then Transport.reply true ethBodyText
  else Transport.fail

/-- Network environment answering every request with the same valid body. -/
def netDup : Nat → Transport := fun _ => Transport.reply true btcBodyText

/-- Network environment: first request succeeds, the rest fail at transport. -/
def netBtcThenFail : Nat → Transport := fun i =>
  if i = 0 then Transport.reply true btcBodyText else Transport.fail

/-- Network environment where every transport fails. -/
def netFailAll : Nat → Transport := fun _ => Transport.fail

/-- An upstream that answers status 500 with an empty JSON object body. -/
def upstream500 : String → UpstreamReply := fun _ => UpstreamReply.mk 500 "\x7b\x7d"

example : resolveToken (Transport.reply true btcBodyText) = Except.ok btcToken := rfl
example : resolveToken (Transport.reply true ethBodyText) = Except.ok ethToken := rfl
example : resolveToken (Transport.reply false btcBodyText)
    = Except.error "API request failed" := rfl
example : resolveToken (Transport.reply true "not json") = Except.error "invalid JSON" := rfl




/-! ### Observations on the model -/

/-- The number of requests a submission issues: one per surviving token. -/
def issuedCount (tokens : List String) : Nat :=
  (tokens.filter (fun t => trimJS t ≠ "")).length

/-- The settlement of every fan-out request of a submission, in issue order
(`Promise.allSettled` preserves the order of its input array, regardless of
completion timing). -/
def settledList (tokens : List String) (net : Nat → Transport) :
    List (Except String TokenInfo) :=
  (List.range (issuedCount tokens)).map (fun i => resolveToken (net i))

/-- The staged success condition of the specification, written from its
words: a request contributes a (validated) record precisely when the
transport completed, the HTTP status was a success, the body parsed as
JSON, and the schema validated. -/
def stagedSuccess : Transport → Option TokenInfo
  | Transport.fail => none
  | Transport.reply ok body =>
    if ok then
      match jsonParse body with
      | Except.ok data => (tokenSchemaParse data).toOption
      | Except.error _ => none
    else none

example : resolveToken (Transport.reply true badSentimentBody)
    = Except.error "invalid enum value" := rfl
example : resolveToken (Transport.reply true badImageBody)
    = Except.error "invalid url" := rfl

/-! ### Helper lemmas -/

theorem exceptErrorBind {E A B : Type} (e : E) (f : A → Except E B) :
    (Except.error e >>= f) = Except.error e := rfl

theorem exceptOkBind {E A B : Type} (a : A) (f : A → Except E B) :
    (Except.ok a >>= f) = f a := rfl

theorem memToOption {E A : Type} {x : Except E A} {a : A} :
    a ∈ x.toOption ↔ x = Except.ok a := by
  cases x <;> simp [Except.toOption]

/-- Inversion for a successful sentiment-field validation: the field was
present, a string, and a member of the enumeration. -/
theorem zodSentiment_ok_inv (v : Option JsonValue) (x : Sentiment)
    (h : zodSentiment v = Except.ok x) :
    ∃ s, v = some (JsonValue.str s) ∧ parseSentiment s = some x := by
  cases v with
  | none => simp [zodSentiment] at h
  | some jv =>
    cases jv with
    | str s =>
      rcases hp : parseSentiment s with _ | y
      · rw [zodSentiment, hp] at h
        exact absurd h (by simp)
      · rw [zodSentiment, hp] at h
        injection h with h2
        exact ⟨s, rfl, by rw [hp, h2]⟩
    | null => simp [zodSentiment] at h
    | bool b => simp [zodSentiment] at h
    | num m => simp [zodSentiment] at h
    | arr es => simp [zodSentiment] at h
    | obj fs => simp [zodSentiment] at h

/-- Every settled request is either kept (a fulfilled value, retained by
`filterMap`) or counted as failed: the two partitions are exhaustive and
disjoint, so their sizes add up to the number of requests. -/
theorem settled_partition (l : List (Except String TokenInfo)) :
    (l.filterMap Except.toOption).length + l.countP (fun r => !r.isOk) = l.length := by
  induction l with
  | nil => rfl
  | cons x xs ih =>
    cases x <;>
      simp [List.countP_cons, Except.toOption, Except.isOk, Except.toBool] at ih ⊢ <;>
      omega

/-- `Except.toOption ∘ resolveToken` is exactly the staged success condition
of the specification. -/
theorem resolveToken_toOption (t : Transport) :
    (resolveToken t).toOption = stagedSuccess t := by
  cases t with
  | fail => rfl
  | reply ok body =>
    cases ok with
    | false => rfl
    | true =>
      cases h : jsonParse body <;>
        simp [resolveToken, stagedSuccess, h, Except.toOption]

/-- Unfolding equation for `filterIdxFrom` on a cons cell. -/
theorem filterIdxFrom_cons (p : Nat → Bool) (k : Nat) (x : String) (xs : List String) :
    filterIdxFrom p k (x :: xs)
      = if p k then x :: filterIdxFrom p (k + 1) xs else filterIdxFrom p (k + 1) xs := rfl

/-- Below the index being removed, the index-aware filter keeps everything. -/
theorem filterIdxFrom_of_lt (i : Nat) :
    ∀ (xs : List String) (k : Nat), i < k →
      filterIdxFrom (fun j => j ≠ i) k xs = xs := by
  intro xs
  induction xs with
  | nil => intro k _; rfl
  | cons x xs ih =>
    intro k hk
    rw [filterIdxFrom_cons]
    split
    · rw [ih (k + 1) (by omega)]
    · rename_i hfalse
      simp at hfalse
      omega

/-- Shifting the start index and the removed index together changes nothing. -/
theorem filterIdxFrom_shift (i : Nat) :
    ∀ (xs : List String) (k : Nat),
      filterIdxFrom (fun j => j ≠ (i + 1)) (k + 1) xs
        = filterIdxFrom (fun j => j ≠ i) k xs := by
  intro xs
  induction xs with
  | nil => intro k; rfl
  | cons x xs ih =>
    intro k
    rw [filterIdxFrom_cons, filterIdxFrom_cons]
    by_cases h : k = i
    · subst h
      rw [if_neg (by simp), if_neg (by simp)]
      exact ih (k + 1)
    · rw [if_pos (by simp; omega), if_pos (by simp; omega), ih (k + 1)]

/-- Removing index `i` from a list it indexes into is deleting that entry and
shifting the remainder left by one. -/
theorem filterIdxFrom_removeAt :
    ∀ (xs : List String) (i : Nat), i < xs.length →
      filterIdxFrom (fun j => j ≠ i) 0 xs = xs.take i ++ xs.drop (i + 1) := by
  intro xs
  induction xs with
  | nil => intro i h; simp at h
  | cons x xs ih =>
    intro i h
    cases i with
    | zero =>
      rw [filterIdxFrom_cons, if_neg (by simp), filterIdxFrom_of_lt 0 xs 1 (by omega)]
      simp
    | succ i =>
      have hi : i < xs.length := by simpa using h
      rw [filterIdxFrom_cons, if_pos (by simp), filterIdxFrom_shift i xs 0, ih i hi]
      simp

/-- The index-aware filter for a single index removes at most one entry. -/
theorem filterIdxFrom_length_ge (i : Nat) :
    ∀ (xs : List String) (k : Nat),
      xs.length ≤ (filterIdxFrom (fun j => j ≠ i) k xs).length + 1 := by
  intro xs
  induction xs with
  | nil => intro k; simp
  | cons x xs ih =>
    intro k
    rw [filterIdxFrom_cons]
    split
    · have := ih (k + 1)
      simp only [List.length_cons]
      omega
    · rename_i hfalse
      simp at hfalse
      subst hfalse
      rw [filterIdxFrom_of_lt k xs (k + 1) (by omega)]
      simp

/-! ### Claim theorems -/

/-- C2: when every entry of the identifier list is blank or whitespace-only,
`handleSubmit` issues no network request, surfaces the "Please enter at
least one token" notice, and leaves the result set cleared (the prior result
set was replaced by the empty set at the start of the submission). -/
theorem handleSubmit_allBlank (tokens : List String) (net : Nat → Transport)
    (h : ∀ t ∈ tokens, trimJS t = "") :
    handleSubmit tokens net =
      { requests := [], results := [],
        toasts := ["Please enter at least one token"] } := by
  have hf : tokens.filter (fun t => trimJS t ≠ "") = [] := by
    simp only [List.filter_eq_nil_iff]
    intro a ha
    simp [h a ha]
  simp only [handleSubmit]
  rw [hf]
  rfl

/-- Witness for C2 at a concrete all-blank submission. -/
theorem handleSubmit_allBlank_witness :
    handleSubmit ["", " \t "] netFailAll =
      { requests := [], results := [],
        toasts := ["Please enter at least one token"] } :=
  handleSubmit_allBlank ["", " \t "] netFailAll (by decide)

/-- C5: the proxy invoked without a `token` query parameter responds 400 with
body `{"error": "Token is required"}` and calls the upstream service zero
times, whatever the upstream would have answered. -/
theorem routeGET_missingToken (upstream : String → UpstreamReply) :
    routeGET none upstream =
      { response := some (RouteResponse.mk 400
          (JsonValue.obj [("error", JsonValue.str "Token is required")])),
        upstreamCalls := [] } := rfl

/-- C8 counterexample: a stored dark-mode value that is not valid JSON makes
the startup read throw (`JSON.parse` raises), rather than evaluate to
`false` as the claim states. -/
theorem darkMode_read_counterexample :
    readDarkMode (some "#") = Except.error "invalid JSON" := rfl

/-- C8 (amended): the startup read of the dark-mode flag evaluates to `false`
when the stored value is absent, and also when it is the empty string (which
is falsy before `JSON.parse` is reached); a non-empty stored value that
fails to parse as JSON makes the read throw instead of defaulting. -/
theorem darkMode_read_defaults (s : String) (hs : s ≠ "")
    (hp : (jsonParse s).isOk = false) :
    readDarkMode none = Except.ok (JsonValue.bool false)
    ∧ readDarkMode (some "") = Except.ok (JsonValue.bool false)
    ∧ (readDarkMode (some s)).isOk = false := by
  refine ⟨rfl, rfl, ?_⟩
  simp only [readDarkMode, if_neg hs]
  exact hp

/-- Witness for C8 (amended) at the concrete stored value `"oops"`. -/
theorem darkMode_read_defaults_witness :
    readDarkMode none = Except.ok (JsonValue.bool false)
    ∧ (readDarkMode (some "oops")).isOk = false :=
  ⟨(darkMode_read_defaults "oops" (by decide) rfl).1,
   (darkMode_read_defaults "oops" (by decide) rfl).2.2⟩

/-- C9: writing the dark-mode flag (`JSON.stringify`) and reading it back at
startup (`JSON.parse` behind the truthiness guard) restores the same
boolean, for both values of the flag. -/
theorem darkMode_roundTrip (b : Bool) :
    readDarkMode (some (writeDarkMode b)) = Except.ok (JsonValue.bool b) := by
  cases b <;> rfl

/-- C6: removing the sole remaining token field is a no-op; removing an
existing field from a longer list deletes exactly that entry and shifts the
rest left by one, preserving relative order; every list operation preserves
the length-at-least-one invariant, which holds of the initial state. -/
theorem removeTokenField_spec :
    (∀ (tokens : List String) (i : Nat), tokens.length = 1 →
      removeTokenField tokens i = tokens)
    ∧ (∀ (tokens : List String) (i : Nat), 1 < tokens.length → i < tokens.length →
      removeTokenField tokens i = tokens.take i ++ tokens.drop (i + 1))
    ∧ (∀ (tokens : List String) (op : TokenListOp),
      1 ≤ tokens.length → 1 ≤ (applyTokenListOp tokens op).length)
    ∧ 1 ≤ initialTokens.length := by
  refine ⟨?_, ?_, ?_, by decide⟩
  · intro tokens i h
    simp [removeTokenField, h]
  · intro tokens i h1 hi
    rw [removeTokenField, if_pos h1]
    exact filterIdxFrom_removeAt tokens i hi
  · intro tokens op h1
    cases op with
    | edit i v => simpa [applyTokenListOp, handleTokenChange] using h1
    | add => simp [applyTokenListOp, addTokenField]
    | remove i =>
      simp only [applyTokenListOp, removeTokenField]
      by_cases h2 : tokens.length > 1
      · rw [if_pos h2]
        have := filterIdxFrom_length_ge i tokens 0
        omega
      · rw [if_neg h2]
        exact h1

/-- Witness for C6 at concrete lists and operations. -/
theorem removeTokenField_spec_witness :
    removeTokenField ["a"] 0 = ["a"]
    ∧ removeTokenField ["a", "b", "c"] 1 = ["a", "c"]
    ∧ 1 ≤ (applyTokenListOp ["a"] (TokenListOp.remove 0)).length := by
  refine ⟨removeTokenField_spec.1 ["a"] 0 rfl, ?_, ?_⟩
  · rw [removeTokenField_spec.2.1 ["a", "b", "c"] 1 (by decide) (by decide)]
    rfl
  · exact removeTokenField_spec.2.2.1 ["a"] (TokenListOp.remove 0) (by decide)

/-- C4 counterexample: a request that carries the `token` query parameter
with an empty value is answered 400 with the "Token is required" body and no
upstream call: the guard `if (!token)` also fires on the empty string, so
the claim's "every request that carries a `token` query parameter" is too
broad. -/
theorem routeGET_emptyToken_counterexample :
    (routeGET (some "") upstream500).upstreamCalls = []
    ∧ (routeGET (some "") upstream500).response =
        some (RouteResponse.mk 400
          (JsonValue.obj [("error", JsonValue.str "Token is required")])) :=
  ⟨rfl, rfl⟩

/-- C4 (amended): for every request whose `token` parameter is present and
non-empty, the proxy forwards exactly one GET upstream with the same token
value; whenever the upstream body parses as JSON it is returned verbatim
with status 200; and the outcome never depends on the upstream status code
(only on the body text). -/
theorem routeGET_forwards (t : String) (upstream : String → UpstreamReply)
    (ht : t ≠ "") :
    (routeGET (some t) upstream).upstreamCalls = [t]
    ∧ (∀ j, jsonParse (upstream t).bodyText = Except.ok j →
        (routeGET (some t) upstream).response = some (RouteResponse.mk 200 j))
    ∧ (∀ upstream2 : String → UpstreamReply,
        (upstream2 t).bodyText = (upstream t).bodyText →
        routeGET (some t) upstream2 = routeGET (some t) upstream) := by
  refine ⟨?_, ?_, ?_⟩
  · simp only [routeGET]
    rw [if_neg ht]
    split <;> rfl
  · intro j hj
    simp only [routeGET]
    rw [if_neg ht, hj]
  · intro upstream2 h2
    simp only [routeGET]
    rw [if_neg ht, if_neg ht, h2]

/-- Witness for C4 (amended): a 500 upstream answer is still relayed as a
200 response with the upstream's JSON body, after exactly one forward. -/
theorem routeGET_forwards_witness :
    (routeGET (some "btc") upstream500).upstreamCalls = ["btc"]
    ∧ (routeGET (some "btc") upstream500).response
        = some (RouteResponse.mk 200 (JsonValue.obj [])) :=
  ⟨(routeGET_forwards "btc" upstream500 (by decide)).1,
   (routeGET_forwards "btc" upstream500 (by decide)).2.1 (JsonValue.obj []) rfl⟩

/-- C10: each issued request carries the surviving identifier lower-cased but
otherwise unmodified — the filter tests the trimmed string while the request
uses the original untrimmed string, and lower-casing maps characters
pointwise, fixing every whitespace character, so leading and trailing
whitespace survives into the `token` query parameter. -/
theorem handleSubmit_requests_lowercase (tokens : List String)
    (net : Nat → Transport) :
    (handleSubmit tokens net).requests
      = (tokens.filter (fun t => trimJS t ≠ "")).map toLowerJS
    ∧ (∀ t : String, (toLowerJS t).data = t.data.map Char.toLower)
    ∧ (∀ c : Char, c.isWhitespace = true → Char.toLower c = c) := by
  refine ⟨?_, fun t => rfl, ?_⟩
  · by_cases h : (tokens.filter (fun t => trimJS t ≠ "")).length = 0
    · have hemp : tokens.filter (fun t => trimJS t ≠ "") = [] :=
        List.length_eq_zero.mp h
      simp only [handleSubmit]
      rw [hemp]
      rfl
    · simp only [handleSubmit]
      rw [if_neg h]
  · intro c hc
    simp [Char.isWhitespace] at hc
    rcases hc with ((hc | hc) | hc) | hc <;> subst hc <;> decide

/-- Witness for C10: a padded upper-case identifier reaches the request list
lower-cased with its padding intact. -/
theorem handleSubmit_requests_lowercase_witness :
    (handleSubmit ["  BTC ", " ", "Eth"] netFailAll).requests = ["  btc ", "eth"]
    ∧ Char.toLower ' ' = ' ' := by
  constructor
  · rw [(handleSubmit_requests_lowercase ["  BTC ", " ", "Eth"] netFailAll).1]
    rfl
  · exact (handleSubmit_requests_lowercase [] netFailAll).2.2 ' ' (by decide)

/-- C1: for a submission whose filtered identifier list is non-empty, after
all requests settle the result set is exactly the fulfilled values in issue
order (equivalently: exactly the tokens whose transport completed, whose
HTTP status was ok, and whose body was schema-valid JSON); the kept results
and the failed requests partition the issued requests, so the aggregate
failure notice reports precisely the number of failed tokens. -/
theorem handleSubmit_aggregates (tokens : List String) (net : Nat → Transport)
    (h : issuedCount tokens ≠ 0) :
    (handleSubmit tokens net).results = (settledList tokens net).filterMap Except.toOption
    ∧ (handleSubmit tokens net).results
        = (List.range (issuedCount tokens)).filterMap (fun i => stagedSuccess (net i))
    ∧ (handleSubmit tokens net).results.length
        + (settledList tokens net).countP (fun r => !r.isOk)
      = issuedCount tokens
    ∧ (handleSubmit tokens net).toasts
      = (if 0 < (settledList tokens net).countP (fun r => !r.isOk)
         then [failToast ((settledList tokens net).countP (fun r => !r.isOk))]
         else []) := by
  have hres : (handleSubmit tokens net).results
      = (settledList tokens net).filterMap Except.toOption := by
    simp only [handleSubmit, settledList, issuedCount] at h ⊢
    rw [if_neg h]
  have hstaged : (handleSubmit tokens net).results
      = (List.range (issuedCount tokens)).filterMap (fun i => stagedSuccess (net i)) := by
    rw [hres, settledList, List.filterMap_map]
    have hfun : (Except.toOption ∘ fun i => resolveToken (net i))
        = fun i => stagedSuccess (net i) :=
      funext (fun i => resolveToken_toOption (net i))
    rw [hfun]
  refine ⟨hres, hstaged, ?_, ?_⟩
  · rw [hres]
    have := settled_partition (settledList tokens net)
    simp only [settledList, issuedCount] at this ⊢
    simpa using this
  · simp only [handleSubmit, settledList, issuedCount] at h ⊢
    rw [if_neg h]

/-- Witness for C1: three surviving identifiers, of which the first two
succeed and the third fails in transport; the result set is the two
validated records in issue order and the failure toast reports one token. -/
theorem handleSubmit_aggregates_witness :
    issuedCount ["BTC", " ", "eth", "doge"] ≠ 0
    ∧ (handleSubmit ["BTC", " ", "eth", "doge"] netBtcEth).results
        = (settledList ["BTC", " ", "eth", "doge"] netBtcEth).filterMap Except.toOption
    ∧ (handleSubmit ["BTC", " ", "eth", "doge"] netBtcEth).results
        = [btcToken, ethToken]
    ∧ (handleSubmit ["BTC", " ", "eth", "doge"] netBtcEth).toasts
        = ["Failed to fetch 1 token"] :=
  ⟨by decide,
   (handleSubmit_aggregates ["BTC", " ", "eth", "doge"] netBtcEth (by decide)).1,
   rfl, rfl⟩

/-- C7 counterexample: submitting the same identifier in two input fields,
with the upstream answering the same valid record for both, produces a
result set whose two entries share the same `id` — the rendered result set
does not have unique ids. -/
theorem handleSubmit_dup_ids_counterexample :
    ¬ ((handleSubmit ["btc", "btc"] netDup).results.map TokenInfo.id).Nodup := by
  have h : (handleSubmit ["btc", "btc"] netDup).results.map TokenInfo.id
      = ["bitcoin", "bitcoin"] := rfl
  rw [h]
  decide

/-- C7 (amended): the orchestrator performs no deduplication, so the `id`
fields of a result set are exactly the ids of the fulfilled responses in
issue order; they are pairwise distinct whenever any two distinct requests
that both fulfil carry distinct ids (duplicated identifiers or an upstream
answering the same id twice violate that side condition, and then the
result set repeats the id). -/
theorem handleSubmit_nodup_ids (tokens : List String) (net : Nat → Transport)
    (h : ∀ i j a b, i < j → resolveToken (net i) = Except.ok a →
         resolveToken (net j) = Except.ok b → a.id ≠ b.id) :
    ((handleSubmit tokens net).results.map TokenInfo.id).Nodup := by
  by_cases h0 : (tokens.filter (fun t => trimJS t ≠ "")).length = 0
  · have hres : (handleSubmit tokens net).results = [] := by
      simp only [handleSubmit]
      rw [if_pos h0]
    rw [hres]
    exact List.nodup_nil
  · have hres : (handleSubmit tokens net).results
        = ((List.range (tokens.filter (fun t => trimJS t ≠ "")).length).map
            (fun i => resolveToken (net i))).filterMap Except.toOption := by
      simp only [handleSubmit]
      rw [if_neg h0]
    rw [hres, List.filterMap_map]
    have hpair : List.Pairwise
        (fun i j => ∀ a b, resolveToken (net i) = Except.ok a →
          resolveToken (net j) = Except.ok b → a.id ≠ b.id)
        (List.range (tokens.filter (fun t => trimJS t ≠ "")).length) :=
      (List.pairwise_lt_range _).imp (fun hij a b ha hb => h _ _ a b hij ha hb)
    have hpair2 : List.Pairwise (fun a b => TokenInfo.id a ≠ TokenInfo.id b)
        (List.filterMap (Except.toOption ∘ fun i => resolveToken (net i))
          (List.range (tokens.filter (fun t => trimJS t ≠ "")).length)) := by
      refine List.Pairwise.filterMap _ ?_ hpair
      intro i j hR a ha b hb
      exact hR a b (memToOption.mp ha) (memToOption.mp hb)
    exact List.pairwise_map.mpr hpair2

/-- Witness for C7 (amended): two distinct identifiers answered by records
with distinct ids yield a result set with pairwise-distinct ids. -/
theorem handleSubmit_nodup_ids_witness :
    ((handleSubmit ["btc", "eth"] netBtcEth).results.map TokenInfo.id).Nodup := by
  apply handleSubmit_nodup_ids
  intro i j a b hij ha hb
  rcases Nat.lt_or_ge j 2 with hj | hj
  · have hj1 : j = 1 := by omega
    have hi0 : i = 0 := by omega
    subst hj1
    subst hi0
    rw [show resolveToken (netBtcEth 0) = Except.ok btcToken from rfl] at ha
    rw [show resolveToken (netBtcEth 1) = Except.ok ethToken from rfl] at hb
    injection ha with ha2
    injection hb with hb2
    rw [← ha2, ← hb2]
    decide
  · exfalso
    have hfail : netBtcEth j = Transport.fail := by
      simp only [netBtcEth]
      rw [if_neg (by omega), if_neg (by omega)]
    rw [hfail] at hb
    exact absurd hb (by simp [resolveToken])

/-- C3: a response body whose `sentiment` field is missing or outside the
closed enumeration, or whose `image` field is a string that is not parseable
as a URL, fails schema validation: the token's promise rejects, so it is
excluded from the result set (it contributes nothing to the `filterMap` of
fulfilled values — no partial or patched record is added) and it contributes
exactly one to the count of failed tokens, wherever it sits among the
settled requests. -/
theorem tokenSchema_rejects (bodyText : String) (j : JsonValue)
    (hparse : jsonParse bodyText = Except.ok j)
    (hbad : (∀ s, jsonLookup j "sentiment" = some (JsonValue.str s) →
              parseSentiment s = none)
          ∨ (∃ s, jsonLookup j "image" = some (JsonValue.str s) ∧ isURL s = false)) :
    (tokenSchemaParse j).isOk = false
    ∧ (resolveToken (Transport.reply true bodyText)).isOk = false
    ∧ ∀ (pre suf : List (Except String TokenInfo)),
        (pre ++ resolveToken (Transport.reply true bodyText) :: suf).filterMap
            Except.toOption
          = pre.filterMap Except.toOption ++ suf.filterMap Except.toOption
        ∧ (pre ++ resolveToken (Transport.reply true bodyText) :: suf).countP
            (fun r => !r.isOk)
          = pre.countP (fun r => !r.isOk) + suf.countP (fun r => !r.isOk) + 1 := by
  have hres : resolveToken (Transport.reply true bodyText) = tokenSchemaParse j := by
    have hstep : resolveToken (Transport.reply true bodyText)
        = match jsonParse bodyText with
          | Except.ok data => tokenSchemaParse data
          | Except.error e => Except.error e := rfl
    rw [hstep, hparse]
  have hcore : (tokenSchemaParse j).isOk = false := by
    cases j with
    | null => rfl
    | bool b => rfl
    | num m => rfl
    | str s => rfl
    | arr es => rfl
    | obj fields =>
      simp only [tokenSchemaParse]
      rcases h1 : zodString (jsonLookup (JsonValue.obj fields) "id") with e1 | id
      · rfl
      simp only [exceptOkBind]
      rcases h2 : zodString (jsonLookup (JsonValue.obj fields) "name") with e2 | name
      · rfl
      simp only [exceptOkBind]
      rcases h3 : zodString (jsonLookup (JsonValue.obj fields) "symbol") with e3 | symbol
      · rfl
      simp only [exceptOkBind]
      rcases hbad with hsent | ⟨s, himg, hurl⟩
      · rcases h4 : zodString (jsonLookup (JsonValue.obj fields) "image") with e4 | image
        · rfl
        simp only [exceptOkBind]
        cases hu : isURL image with
        | false => rfl
        | true =>
          rw [if_neg (by decide : ¬ ((!true) = true))]
          rcases h5 : zodString (jsonLookup (JsonValue.obj fields) "summary") with e5 | summary
          · rfl
          simp only [exceptOkBind]
          rcases h6 : zodOptNumber (jsonLookup (JsonValue.obj fields) "price") with e6 | price
          · rfl
          simp only [exceptOkBind]
          rcases h7 : zodOptNumber (jsonLookup (JsonValue.obj fields) "market_cap") with e7 | mc
          · rfl
          simp only [exceptOkBind]
          rcases h8 : zodOptNumber (jsonLookup (JsonValue.obj fields) "price_change_24h")
            with e8 | pc
          · rfl
          simp only [exceptOkBind]
          rcases h9 : zodOptNumber (jsonLookup (JsonValue.obj fields) "volume_24h") with e9 | vol
          · rfl
          simp only [exceptOkBind]
          rcases h10 : zodOptNumber (jsonLookup (JsonValue.obj fields) "circulating_supply")
            with e10 | csup
          · rfl
          simp only [exceptOkBind]
          rcases hsv : zodSentiment (jsonLookup (JsonValue.obj fields) "sentiment")
            with e11 | sv
          · rfl
          obtain ⟨s3, hv, hp3⟩ := zodSentiment_ok_inv _ _ hsv
          have hnone := hsent s3 hv
          rw [hnone] at hp3
          exact absurd hp3 (by simp)
      · rw [himg]
        rw [show zodString (some (JsonValue.str s)) = Except.ok s from rfl]
        simp only [exceptOkBind]
        rw [hurl]
        rfl
  refine ⟨hcore, ?_, ?_⟩
  · rw [hres]; exact hcore
  · intro pre suf
    have herr : ∃ e, resolveToken (Transport.reply true bodyText) = Except.error e := by
      rw [hres]
      cases hE : tokenSchemaParse j with
      | ok v => rw [hE] at hcore; exact absurd hcore (by simp [Except.isOk, Except.toBool])
      | error e => exact ⟨e, rfl⟩
    obtain ⟨e, he⟩ := herr
    rw [he]
    constructor
    · simp [List.filterMap_append, Except.toOption]
    · simp [List.countP_append, List.countP_cons, Except.isOk, Except.toBool]
      omega

/-- Witness for C3 at two concrete bodies: an out-of-enumeration sentiment
and a non-URL image are each rejected, excluded, and counted once. -/
theorem tokenSchema_rejects_witness :
    (resolveToken (Transport.reply true badSentimentBody)).isOk = false
    ∧ (resolveToken (Transport.reply true badImageBody)).isOk = false
    ∧ ([Except.ok btcToken, resolveToken (Transport.reply true badSentimentBody)].countP
        (fun r => !r.isOk)) = 1 := by
  refine ⟨?_, ?_, ?_⟩
  · exact (tokenSchema_rejects badSentimentBody
      (JsonValue.obj [("id", JsonValue.str "x"), ("name", JsonValue.str "X"),
        ("symbol", JsonValue.str "X"), ("image", JsonValue.str "https://a.example/x.png"),
        ("summary", JsonValue.str "s"), ("sentiment", JsonValue.str "sideways")])
      rfl
      (Or.inl (by
        intro s hs
        injection hs with hs2
        injection hs2 with hs3
        rw [← hs3]
        rfl))).2.1
  · exact (tokenSchema_rejects badImageBody
      (JsonValue.obj [("id", JsonValue.str "x"), ("name", JsonValue.str "X"),
        ("symbol", JsonValue.str "X"), ("image", JsonValue.str "notaurl"),
        ("summary", JsonValue.str "s"), ("sentiment", JsonValue.str "bullish")])
      rfl
      (Or.inr ⟨"notaurl", rfl, rfl⟩)).2.1
  · rfl
